import Mathlib

/-!
# Verification of the PyOrion frontend socket bridge

Shallow embedding of `src/assets/pyorion_socket.js`: the marshalling codec
(`jsonMakeObjectSafe`, `jsonRestoreObjectSync`, `jsonRestoreObjectAsync`),
the event dispatcher, the connection manager's reconnect bookkeeping, and
the invocation broker (`invoke`, `transformCallback`, the inbound message
handler).

JavaScript values are modelled by the inductive type `JVal`; machine
details that the code relies on (truthiness, `String(...)` coercion,
`Date.prototype.toISOString`, `btoa`) are given explicit executable
models.  Dates are represented by their UTC field tuple, which is in
bijection with the epoch-milliseconds representation used by the runtime
for every date the code can produce.
-/

namespace PyOrion

/-! ## Digits and padded decimal rendering (for `toISOString`) -/

/-- The character for a single decimal digit `n < 10`. -/
def digCh (n : Nat) : Char := Char.ofNat (48 + n)

/-- Numeric value of a decimal digit character. -/
def dVal (c : Char) : Nat := c.toNat - 48

theorem digCh_isDigit {n : Nat} (h : n < 10) : (digCh n).isDigit = true := by
  interval_cases n <;> decide

theorem dVal_digCh {n : Nat} (h : n < 10) : dVal (digCh n) = n := by
  interval_cases n <;> decide

/-- Two-digit zero-padded rendering, as a character list. -/
def pad2c (n : Nat) : List Char := [digCh (n / 10 % 10), digCh (n % 10)]

/-- Three-digit zero-padded rendering, as a character list. -/
def pad3c (n : Nat) : List Char :=
  [digCh (n / 100 % 10), digCh (n / 10 % 10), digCh (n % 10)]

/-- Four-digit zero-padded rendering, as a character list. -/
def pad4c (n : Nat) : List Char :=
  [digCh (n / 1000 % 10), digCh (n / 100 % 10), digCh (n / 10 % 10), digCh (n % 10)]

/-! ## The UTC date model -/

/-- A JavaScript `Date`, represented by its UTC broken-down fields.
Structural equality of two `Date`s (equal time values) coincides with
equality of the field tuples for all valid dates. -/
structure JDate where
  year : Nat
  month : Nat
  day : Nat
  hour : Nat
  minute : Nat
  second : Nat
  ms : Nat
deriving DecidableEq, Repr

/-- Gregorian leap-year test. -/
def isLeap (y : Nat) : Bool := (y % 4 == 0 && y % 100 != 0) || y % 400 == 0

/-- Number of days in month `m` of year `y`. -/
def daysInMonth (y m : Nat) : Nat :=
  if m = 2 then (if isLeap y then 29 else 28)
  else if m = 4 ∨ m = 6 ∨ m = 9 ∨ m = 11 then 30
  else 31

/-- The dates representable by `Date.prototype.toISOString`'s plain
(four-digit-year) form, with in-range calendar fields. -/
def JDate.Valid (d : JDate) : Prop :=
  d.year ≤ 9999 ∧ 1 ≤ d.month ∧ d.month ≤ 12 ∧ 1 ≤ d.day ∧
    d.day ≤ daysInMonth d.year d.month ∧ d.hour ≤ 23 ∧ d.minute ≤ 59 ∧
    d.second ≤ 59 ∧ d.ms ≤ 999

instance (d : JDate) : Decidable d.Valid := by unfold JDate.Valid; infer_instance

/-- `Date.prototype.toISOString`: `YYYY-MM-DDTHH:mm:ss.sssZ`, as characters. -/
def toISOChars (d : JDate) : List Char :=
  pad4c d.year ++ '-' :: pad2c d.month ++ '-' :: pad2c d.day ++
    'T' :: pad2c d.hour ++ ':' :: pad2c d.minute ++ ':' :: pad2c d.second ++
    '.' :: pad3c d.ms ++ ['Z']

/-- `Date.prototype.toISOString` as a string. -/
def toISOString (d : JDate) : String := ⟨toISOChars d⟩

/-- The decoder's date sniff `/^\d{4}-\d{2}-\d{2}T/`: four digits, `-`,
two digits, `-`, two digits, `T` at the start of the string. -/
def isoPrefixTest : List Char → Bool
  | a :: b :: c :: d :: '-' :: e :: f :: '-' :: g :: h :: 'T' :: _ =>
    a.isDigit && b.isDigit && c.isDigit && d.isDigit &&
      e.isDigit && f.isDigit && g.isDigit && h.isDigit
  | _ => false

/-- `new Date(s)` on the canonical 24-character form `toISOString`
emits (`YYYY-MM-DDTHH:mm:ss.sssZ`): parse the fields and validate the
calendar ranges; out-of-range components give an invalid date (`NaN`),
modelled as `none`.  This models the decoder's date parse exactly on
encoder output.  The runtime also accepts other ISO forms after the
sniff (e.g. without milliseconds, or without `Z` — the latter read as
*local* time, host-dependent), so on sniff-matching strings outside the
canonical form this function is not a faithful model of `new Date`; the
round-trip and agreement fragments below therefore exclude every
sniff-matching string rather than rely on this parse failing. -/
def parseIsoChars : List Char → Option JDate
  | [y1, y2, y3, y4, '-', m1, m2, '-', d1, d2, 'T',
     h1, h2, ':', i1, i2, ':', s1, s2, '.', f1, f2, f3, 'Z'] =>
    if y1.isDigit && y2.isDigit && y3.isDigit && y4.isDigit &&
        m1.isDigit && m2.isDigit && d1.isDigit && d2.isDigit &&
        h1.isDigit && h2.isDigit && i1.isDigit && i2.isDigit &&
        s1.isDigit && s2.isDigit && f1.isDigit && f2.isDigit && f3.isDigit then
      let y := dVal y1 * 1000 + dVal y2 * 100 + dVal y3 * 10 + dVal y4
      let mo := dVal m1 * 10 + dVal m2
      let dd := dVal d1 * 10 + dVal d2
      let h := dVal h1 * 10 + dVal h2
      let mi := dVal i1 * 10 + dVal i2
      let s := dVal s1 * 10 + dVal s2
      let f := dVal f1 * 100 + dVal f2 * 10 + dVal f3
      if 1 ≤ mo ∧ mo ≤ 12 ∧ 1 ≤ dd ∧ dd ≤ daysInMonth y mo ∧
          h ≤ 23 ∧ mi ≤ 59 ∧ s ≤ 59 then
        some ⟨y, mo, dd, h, mi, s, f⟩
      else none
    else none
  | _ => none

theorem daysInMonth_le (y m : Nat) : daysInMonth y m ≤ 31 := by
  unfold daysInMonth
  split
  · split <;> norm_num
  · split <;> norm_num

theorem isoPrefixTest_toISOChars (d : JDate) :
    isoPrefixTest (toISOChars d) = true := by
  simp only [toISOChars, pad4c, pad2c, pad3c, List.cons_append, List.nil_append,
    isoPrefixTest]
  simp [digCh_isDigit (Nat.mod_lt _ (by norm_num))]

theorem parseIsoChars_toISOChars {d : JDate} (h : d.Valid) :
    parseIsoChars (toISOChars d) = some d := by
  obtain ⟨hy, hm1, hm2, hd1, hd2, hh, hmi, hs, hf⟩ := h
  have hd31 : d.day ≤ 31 := le_trans hd2 (daysInMonth_le _ _)
  simp only [toISOChars, pad4c, pad2c, pad3c, List.cons_append, List.nil_append,
    parseIsoChars]
  have ten : ∀ k : Nat, k % 10 < 10 := fun k => Nat.mod_lt _ (by norm_num)
  simp only [digCh_isDigit (ten _), dVal_digCh (ten _), Bool.and_self, if_true]
  have ey : d.year / 1000 % 10 * 1000 + d.year / 100 % 10 * 100 +
      d.year / 10 % 10 * 10 + d.year % 10 = d.year := by omega
  have e2 : ∀ k : Nat, k ≤ 99 → k / 10 % 10 * 10 + k % 10 = k := by omega
  have e3 : d.ms / 100 % 10 * 100 + d.ms / 10 % 10 * 10 + d.ms % 10 = d.ms := by
    omega
  rw [ey, e2 d.month (by omega), e2 d.day (by omega), e2 d.hour (by omega),
    e2 d.minute (by omega), e2 d.second (by omega), e3]
  rw [if_pos (by exact ⟨hm1, hm2, hd1, hd2, hh, hmi, hs⟩)]

/-! ## Base64 (`btoa` over a byte sequence) -/

/-- The base64 alphabet. -/
def b64Alphabet : List Char :=
  "ABCDEFGHIJKLMNOPQRSTUVWXYZabcdefghijklmnopqrstuvwxyz0123456789+/".data

/-- Character for a 6-bit group. -/
def b64Ch (n : Nat) : Char := b64Alphabet.getD n 'A'

/-- Base64 encoding of a byte sequence, as characters. -/
def b64Chars : List Nat → List Char
  | [] => []
  | [a] => [b64Ch (a / 4), b64Ch (a % 4 * 16), '=', '=']
  | [a, b] => [b64Ch (a / 4), b64Ch (a % 4 * 16 + b / 16), b64Ch (b % 16 * 4), '=']
  | a :: b :: c :: rest =>
    b64Ch (a / 4) :: b64Ch (a % 4 * 16 + b / 16) :: b64Ch (b % 16 * 4 + c / 64) ::
      b64Ch (c % 64) :: b64Chars rest

/-- `btoa(String.fromCharCode(...bytes))`: base64 of the byte sequence. -/
def btoa (bs : List Nat) : String := ⟨b64Chars bs⟩

/-! ## JavaScript values -/

/-- A JavaScript value, as the socket bridge distinguishes them.
`obj` models a plain object (`constructor === Object`) by its
`Object.entries` list, whose keys are pairwise distinct; `set` models a
`Set` by its insertion-order element list; `binary` models an
`ArrayBuffer` or typed-array view by its byte sequence; `path` models an
object whose constructor is named `Path`; `hostObj` models any other
non-plain object, carrying its enumerable entries and its `String(...)`
coercion. -/
inductive JVal where
  | null
  | str (s : String)
  | num (n : Int)
  | boolV (b : Bool)
  | date (d : JDate)
  | binary (bs : List Nat)
  | arr (xs : List JVal)
  | set (xs : List JVal)
  | obj (fs : List (String × JVal))
  | path (s : String)
  | hostObj (fs : List (String × JVal)) (s : String)
deriving Repr

theorem sizeOf_lt_of_mem_vals {xs : List JVal} {x : JVal} (h : x ∈ xs) :
    sizeOf x < 1 + sizeOf xs := by
  have := List.sizeOf_lt_of_mem h
  omega

theorem sizeOf_snd_lt_of_mem_fields {fs : List (String × JVal)}
    {kv : String × JVal} (h : kv ∈ fs) : sizeOf kv.2 < 1 + sizeOf fs := by
  have h1 := List.sizeOf_lt_of_mem h
  obtain ⟨k, v⟩ := kv
  simp only [Prod.mk.sizeOf_spec] at h1
  simp only []
  omega

/-- JavaScript truthiness of a value. -/
def jsTruthy : JVal → Bool
  | .null => false
  | .boolV b => b
  | .num n => n != 0
  | .str s => s != ""
  | _ => true

/-- Truthiness of a field read: an absent field is `undefined`, falsy. -/
def jsTruthyOpt : Option JVal → Bool
  | none => false
  | some v => jsTruthy v

/-- Property read `o[k]` on an entries list (first matching key). -/
def lookupField (fs : List (String × JVal)) (k : String) : Option JVal :=
  (fs.find? (fun kv => kv.1 == k)).map (fun kv => kv.2)

/-- The `String(...)` / template-literal coercion, for the cases the
bridge can reach.  Arrays and typed arrays join their elements with
commas; plain objects read `[object Object]`.  (For a `Date` the runtime
uses a locale-dependent human-readable form; no claim depends on it, and
the model uses the ISO form.) -/
def jsToString : JVal → String
  | .null => "null"
  | .str s => s
  | .num n => toString n
  | .boolV true => "true"
  | .boolV false => "false"
  | .date d => toISOString d
  | .binary bs => String.intercalate "," (bs.map (fun n => toString n))
  | .arr xs => String.intercalate "," (xs.attach.map (fun x => jsToString x.1))
  | .set _ => "[object Set]"
  | .obj _ => "[object Object]"
  | .path s => s
  | .hostObj _ s => s
decreasing_by
  all_goals
    simp_wf
    have h := sizeOf_lt_of_mem_vals x.2
    omega


/-! ## The marshalling codec

Two copies of `jsonMakeObjectSafe` exist in the source.  The
connection-manager copy tests `typeof obj === "object" &&
!Array.isArray(obj)` *before* the `Array`/`Set` branch, so a `Set` (and
any non-plain object) is encoded through `Object.entries`; a `Set` has no
own enumerable properties, so it encodes to the empty mapping.  The
invoke copy tests `Array.isArray(obj) || obj instanceof Set` first and
restricts the entries branch to `constructor === Object`, so a `Set`
encodes element-wise and other exotic objects fall back to `String(...)`. -/

/-- `jsonMakeObjectSafe`, connection-manager copy (used by `send`). -/
def jsonMakeObjectSafeCM : JVal → JVal
  | .null => .null
  | .str s => .str s
  | .num n => .num n
  | .boolV b => .boolV b
  | .date d => .str (toISOString d)
  | .path s => .str s
  | .binary bs => .str (btoa bs)
  | .set _ => .obj []
  | .hostObj fs _ => .obj (fs.attach.map (fun x => (x.1.1, jsonMakeObjectSafeCM x.1.2)))
  | .obj fs => .obj (fs.attach.map (fun x => (x.1.1, jsonMakeObjectSafeCM x.1.2)))
  | .arr xs => .arr (xs.attach.map (fun x => jsonMakeObjectSafeCM x.1))
decreasing_by
  all_goals
    simp_wf
    first
      | (have h := sizeOf_lt_of_mem_vals x.2; omega)
      | (have h := sizeOf_snd_lt_of_mem_fields x.2; omega)


/-- `jsonMakeObjectSafe`, invoke copy (used by `invoke` and the inbound
message handler). -/
def jsonMakeObjectSafeInv : JVal → JVal
  | .null => .null
  | .str s => .str s
  | .num n => .num n
  | .boolV b => .boolV b
  | .date d => .str (toISOString d)
  | .path s => .str s
  | .binary bs => .str (btoa bs)
  | .arr xs => .arr (xs.attach.map (fun x => jsonMakeObjectSafeInv x.1))
  | .set xs => .arr (xs.attach.map (fun x => jsonMakeObjectSafeInv x.1))
  | .obj fs => .obj (fs.attach.map (fun x => (x.1.1, jsonMakeObjectSafeInv x.1.2)))
  | .hostObj _ s => .str s
decreasing_by
  all_goals
    simp_wf
    first
      | (have h := sizeOf_lt_of_mem_vals x.2; omega)
      | (have h := sizeOf_snd_lt_of_mem_fields x.2; omega)


/-- `jsonRestoreObjectSync`.  A string passing the ISO-prefix sniff is
parsed with `new Date` (modelled by `parseIsoChars`, exact on the
canonical `toISOString` form; on other sniff-matching strings the real
parse may succeed where the model keeps the string, so no theorem below
relies on the model's behaviour there); a plain object bearing truthy
`media_type` and `bytes` becomes a data-URI string; arrays and plain
objects recurse; everything else passes through. -/
def jsonRestoreObjectSync : JVal → JVal
  | .null => .null
  | .str s =>
    if isoPrefixTest s.data then
      match parseIsoChars s.data with
      | some d => .date d
      | none => .str s
    else .str s
  | .arr xs => .arr (xs.attach.map (fun x => jsonRestoreObjectSync x.1))
  | .obj fs =>
    if jsTruthyOpt (lookupField fs "media_type") && jsTruthyOpt (lookupField fs "bytes") then
      .str ("data:" ++ jsToString ((lookupField fs "media_type").getD .null) ++
        ";base64," ++ jsToString ((lookupField fs "bytes").getD .null))
    else .obj (fs.attach.map (fun x => (x.1.1, jsonRestoreObjectSync x.1.2)))
  | .num n => .num n
  | .boolV b => .boolV b
  | .date d => .date d
  | .binary bs => .binary bs
  | .set xs => .set xs
  | .path s => .path s
  | .hostObj fs s => .hostObj fs s
decreasing_by
  all_goals
    simp_wf
    first
      | (have h := sizeOf_lt_of_mem_vals x.2; omega)
      | (have h := sizeOf_snd_lt_of_mem_fields x.2; omega)


/-- `jsonRestoreObjectAsync`, with every suspension completed.  Its string
branch tests for a data-URI prefix but returns the string unchanged in
both cases; `Promise.all` keeps sequence results in input order, which
the pure recursion models directly. -/
def jsonRestoreObjectAsync : JVal → JVal
  | .null => .null
  | .str s => .str s
  | .arr xs => .arr (xs.attach.map (fun x => jsonRestoreObjectAsync x.1))
  | .obj fs =>
    if jsTruthyOpt (lookupField fs "media_type") && jsTruthyOpt (lookupField fs "bytes") then
      .str ("data:" ++ jsToString ((lookupField fs "media_type").getD .null) ++
        ";base64," ++ jsToString ((lookupField fs "bytes").getD .null))
    else .obj (fs.attach.map (fun x => (x.1.1, jsonRestoreObjectAsync x.1.2)))
  | .num n => .num n
  | .boolV b => .boolV b
  | .date d => .date d
  | .binary bs => .binary bs
  | .set xs => .set xs
  | .path s => .path s
  | .hostObj fs s => .hostObj fs s
decreasing_by
  all_goals
    simp_wf
    first
      | (have h := sizeOf_lt_of_mem_vals x.2; omega)
      | (have h := sizeOf_snd_lt_of_mem_fields x.2; omega)


/-! ### Unfolding equations without `attach` -/

@[simp] theorem safeCM_arr (xs : List JVal) :
    jsonMakeObjectSafeCM (.arr xs) = .arr (xs.map jsonMakeObjectSafeCM) := by
  rw [jsonMakeObjectSafeCM]
  exact congrArg _ (List.attach_map_val xs jsonMakeObjectSafeCM)

@[simp] theorem safeCM_obj (fs : List (String × JVal)) :
    jsonMakeObjectSafeCM (.obj fs) =
      .obj (fs.map (fun kv => (kv.1, jsonMakeObjectSafeCM kv.2))) := by
  rw [jsonMakeObjectSafeCM]
  exact congrArg _ (List.attach_map_val fs (fun kv => (kv.1, jsonMakeObjectSafeCM kv.2)))

@[simp] theorem safeCM_hostObj (fs : List (String × JVal)) (s : String) :
    jsonMakeObjectSafeCM (.hostObj fs s) =
      .obj (fs.map (fun kv => (kv.1, jsonMakeObjectSafeCM kv.2))) := by
  rw [jsonMakeObjectSafeCM]
  exact congrArg _ (List.attach_map_val fs (fun kv => (kv.1, jsonMakeObjectSafeCM kv.2)))

@[simp] theorem safeInv_arr (xs : List JVal) :
    jsonMakeObjectSafeInv (.arr xs) = .arr (xs.map jsonMakeObjectSafeInv) := by
  rw [jsonMakeObjectSafeInv]
  exact congrArg _ (List.attach_map_val xs jsonMakeObjectSafeInv)

@[simp] theorem safeInv_set (xs : List JVal) :
    jsonMakeObjectSafeInv (.set xs) = .arr (xs.map jsonMakeObjectSafeInv) := by
  rw [jsonMakeObjectSafeInv]
  exact congrArg _ (List.attach_map_val xs jsonMakeObjectSafeInv)

@[simp] theorem safeInv_obj (fs : List (String × JVal)) :
    jsonMakeObjectSafeInv (.obj fs) =
      .obj (fs.map (fun kv => (kv.1, jsonMakeObjectSafeInv kv.2))) := by
  rw [jsonMakeObjectSafeInv]
  exact congrArg _ (List.attach_map_val fs (fun kv => (kv.1, jsonMakeObjectSafeInv kv.2)))

@[simp] theorem restoreSync_arr (xs : List JVal) :
    jsonRestoreObjectSync (.arr xs) = .arr (xs.map jsonRestoreObjectSync) := by
  rw [jsonRestoreObjectSync]
  exact congrArg _ (List.attach_map_val xs jsonRestoreObjectSync)

@[simp] theorem restoreSync_obj (fs : List (String × JVal)) :
    jsonRestoreObjectSync (.obj fs) =
      if jsTruthyOpt (lookupField fs "media_type") &&
          jsTruthyOpt (lookupField fs "bytes") then
        .str ("data:" ++ jsToString ((lookupField fs "media_type").getD .null) ++
          ";base64," ++ jsToString ((lookupField fs "bytes").getD .null))
      else .obj (fs.map (fun kv => (kv.1, jsonRestoreObjectSync kv.2))) := by
  rw [jsonRestoreObjectSync]
  rw [List.attach_map_val fs (fun kv => (kv.1, jsonRestoreObjectSync kv.2))]

@[simp] theorem restoreAsync_arr (xs : List JVal) :
    jsonRestoreObjectAsync (.arr xs) = .arr (xs.map jsonRestoreObjectAsync) := by
  rw [jsonRestoreObjectAsync]
  exact congrArg _ (List.attach_map_val xs jsonRestoreObjectAsync)

@[simp] theorem restoreAsync_obj (fs : List (String × JVal)) :
    jsonRestoreObjectAsync (.obj fs) =
      if jsTruthyOpt (lookupField fs "media_type") &&
          jsTruthyOpt (lookupField fs "bytes") then
        .str ("data:" ++ jsToString ((lookupField fs "media_type").getD .null) ++
          ";base64," ++ jsToString ((lookupField fs "bytes").getD .null))
      else .obj (fs.map (fun kv => (kv.1, jsonRestoreObjectAsync kv.2))) := by
  rw [jsonRestoreObjectAsync]
  rw [List.attach_map_val fs (fun kv => (kv.1, jsonRestoreObjectAsync kv.2))]

@[simp] theorem safeCM_null : jsonMakeObjectSafeCM .null = .null := by
  rw [jsonMakeObjectSafeCM]

@[simp] theorem safeCM_str (s : String) : jsonMakeObjectSafeCM (.str s) = .str s := by
  rw [jsonMakeObjectSafeCM]

@[simp] theorem safeCM_num (n : Int) : jsonMakeObjectSafeCM (.num n) = .num n := by
  rw [jsonMakeObjectSafeCM]

@[simp] theorem safeCM_bool (b : Bool) : jsonMakeObjectSafeCM (.boolV b) = .boolV b := by
  rw [jsonMakeObjectSafeCM]

@[simp] theorem safeCM_date (d : JDate) :
    jsonMakeObjectSafeCM (.date d) = .str (toISOString d) := by
  rw [jsonMakeObjectSafeCM]

@[simp] theorem safeCM_path (s : String) : jsonMakeObjectSafeCM (.path s) = .str s := by
  rw [jsonMakeObjectSafeCM]

@[simp] theorem safeCM_binary (bs : List Nat) :
    jsonMakeObjectSafeCM (.binary bs) = .str (btoa bs) := by
  rw [jsonMakeObjectSafeCM]

@[simp] theorem safeCM_set (xs : List JVal) :
    jsonMakeObjectSafeCM (.set xs) = .obj [] := by
  rw [jsonMakeObjectSafeCM]

@[simp] theorem safeInv_null : jsonMakeObjectSafeInv .null = .null := by
  rw [jsonMakeObjectSafeInv]

@[simp] theorem safeInv_str (s : String) : jsonMakeObjectSafeInv (.str s) = .str s := by
  rw [jsonMakeObjectSafeInv]

@[simp] theorem safeInv_num (n : Int) : jsonMakeObjectSafeInv (.num n) = .num n := by
  rw [jsonMakeObjectSafeInv]

@[simp] theorem safeInv_bool (b : Bool) : jsonMakeObjectSafeInv (.boolV b) = .boolV b := by
  rw [jsonMakeObjectSafeInv]

@[simp] theorem safeInv_date (d : JDate) :
    jsonMakeObjectSafeInv (.date d) = .str (toISOString d) := by
  rw [jsonMakeObjectSafeInv]

@[simp] theorem safeInv_path (s : String) : jsonMakeObjectSafeInv (.path s) = .str s := by
  rw [jsonMakeObjectSafeInv]

@[simp] theorem safeInv_binary (bs : List Nat) :
    jsonMakeObjectSafeInv (.binary bs) = .str (btoa bs) := by
  rw [jsonMakeObjectSafeInv]

@[simp] theorem safeInv_hostObj (fs : List (String × JVal)) (s : String) :
    jsonMakeObjectSafeInv (.hostObj fs s) = .str s := by
  rw [jsonMakeObjectSafeInv]

@[simp] theorem restoreSync_null : jsonRestoreObjectSync .null = .null := by
  rw [jsonRestoreObjectSync]

@[simp] theorem restoreSync_str (s : String) :
    jsonRestoreObjectSync (.str s) =
      if isoPrefixTest s.data then
        match parseIsoChars s.data with
        | some d => .date d
        | none => .str s
      else .str s := by
  rw [jsonRestoreObjectSync]

@[simp] theorem restoreSync_num (n : Int) : jsonRestoreObjectSync (.num n) = .num n := by
  rw [jsonRestoreObjectSync]

@[simp] theorem restoreSync_bool (b : Bool) :
    jsonRestoreObjectSync (.boolV b) = .boolV b := by
  rw [jsonRestoreObjectSync]

@[simp] theorem restoreSync_date (d : JDate) :
    jsonRestoreObjectSync (.date d) = .date d := by
  rw [jsonRestoreObjectSync]

@[simp] theorem restoreSync_binary (bs : List Nat) :
    jsonRestoreObjectSync (.binary bs) = .binary bs := by
  rw [jsonRestoreObjectSync]

@[simp] theorem restoreSync_set (xs : List JVal) :
    jsonRestoreObjectSync (.set xs) = .set xs := by
  rw [jsonRestoreObjectSync]

@[simp] theorem restoreSync_path (s : String) :
    jsonRestoreObjectSync (.path s) = .path s := by
  rw [jsonRestoreObjectSync]

@[simp] theorem restoreSync_hostObj (fs : List (String × JVal)) (s : String) :
    jsonRestoreObjectSync (.hostObj fs s) = .hostObj fs s := by
  rw [jsonRestoreObjectSync]

@[simp] theorem restoreAsync_null : jsonRestoreObjectAsync .null = .null := by
  rw [jsonRestoreObjectAsync]

@[simp] theorem restoreAsync_str (s : String) :
    jsonRestoreObjectAsync (.str s) = .str s := by
  rw [jsonRestoreObjectAsync]

@[simp] theorem restoreAsync_num (n : Int) : jsonRestoreObjectAsync (.num n) = .num n := by
  rw [jsonRestoreObjectAsync]

@[simp] theorem restoreAsync_bool (b : Bool) :
    jsonRestoreObjectAsync (.boolV b) = .boolV b := by
  rw [jsonRestoreObjectAsync]

@[simp] theorem restoreAsync_date (d : JDate) :
    jsonRestoreObjectAsync (.date d) = .date d := by
  rw [jsonRestoreObjectAsync]

@[simp] theorem restoreAsync_binary (bs : List Nat) :
    jsonRestoreObjectAsync (.binary bs) = .binary bs := by
  rw [jsonRestoreObjectAsync]

@[simp] theorem restoreAsync_set (xs : List JVal) :
    jsonRestoreObjectAsync (.set xs) = .set xs := by
  rw [jsonRestoreObjectAsync]

@[simp] theorem restoreAsync_path (s : String) :
    jsonRestoreObjectAsync (.path s) = .path s := by
  rw [jsonRestoreObjectAsync]

@[simp] theorem restoreAsync_hostObj (fs : List (String × JVal)) (s : String) :
    jsonRestoreObjectAsync (.hostObj fs s) = .hostObj fs s := by
  rw [jsonRestoreObjectAsync]

/-! ### A member-wise induction principle for `JVal` -/

theorem JVal.indMem {P : JVal → Prop}
    (hnull : P .null) (hstr : ∀ s, P (.str s)) (hnum : ∀ n, P (.num n))
    (hbool : ∀ b, P (.boolV b)) (hdate : ∀ d, P (.date d))
    (hbin : ∀ bs, P (.binary bs)) (hpath : ∀ s, P (.path s))
    (harr : ∀ xs, (∀ x ∈ xs, P x) → P (.arr xs))
    (hset : ∀ xs, (∀ x ∈ xs, P x) → P (.set xs))
    (hobj : ∀ fs, (∀ kv ∈ fs, P kv.2) → P (.obj fs))
    (hhost : ∀ fs s, (∀ kv ∈ fs, P kv.2) → P (.hostObj fs s)) :
    ∀ v, P v
  | .null => hnull
  | .str s => hstr s
  | .num n => hnum n
  | .boolV b => hbool b
  | .date d => hdate d
  | .binary bs => hbin bs
  | .path s => hpath s
  | .arr xs => harr xs (fun x hx =>
      JVal.indMem hnull hstr hnum hbool hdate hbin hpath harr hset hobj hhost x)
  | .set xs => hset xs (fun x hx =>
      JVal.indMem hnull hstr hnum hbool hdate hbin hpath harr hset hobj hhost x)
  | .obj fs => hobj fs (fun kv hkv =>
      JVal.indMem hnull hstr hnum hbool hdate hbin hpath harr hset hobj hhost kv.2)
  | .hostObj fs s => hhost fs s (fun kv hkv =>
      JVal.indMem hnull hstr hnum hbool hdate hbin hpath harr hset hobj hhost kv.2)
decreasing_by
  all_goals
    simp_wf
    first
      | (have h := sizeOf_lt_of_mem_vals hx; omega)
      | (have h := sizeOf_snd_lt_of_mem_fields hkv; omega)

/-! ### The guaranteed-lossless fragment of the codec -/

mutual
/-- The values on which `jsonRestoreObjectSync` after `jsonMakeObjectSafe`
(invoke copy) is the identity: `null`, numbers, booleans, valid dates,
strings that do not match the decoder's date sniff
`/^\d{4}-\d{2}-\d{2}T/` at all (a sniff-matching string may be turned
into a `Date` by the runtime even outside the canonical `toISOString`
form, so all such strings are excluded), and arrays and plain objects of
such values whose objects do not look like media mappings. -/
def lossless : JVal → Bool
  | .null => true
  | .str s => !(isoPrefixTest s.data)
  | .num _ => true
  | .boolV _ => true
  | .date d => decide d.Valid
  | .binary _ => false
  | .arr xs => losslessList xs
  | .set _ => false
  | .obj fs =>
    !(jsTruthyOpt (lookupField fs "media_type") &&
        jsTruthyOpt (lookupField fs "bytes")) &&
      losslessFields fs
  | .path _ => false
  | .hostObj _ _ => false
termination_by v => sizeOf v
decreasing_by
  all_goals simp_wf
  all_goals omega

/-- All list elements lossless. -/
def losslessList : List JVal → Bool
  | [] => true
  | v :: vs => lossless v && losslessList vs
termination_by xs => sizeOf xs
decreasing_by
  all_goals simp_wf
  all_goals omega

/-- All field values lossless. -/
def losslessFields : List (String × JVal) → Bool
  | [] => true
  | (_, v) :: fs => lossless v && losslessFields fs
termination_by fs => sizeOf fs
decreasing_by
  all_goals simp_wf
  all_goals omega
end

theorem losslessList_iff {xs : List JVal} :
    losslessList xs = true ↔ ∀ x ∈ xs, lossless x = true := by
  induction xs with
  | nil => simp [losslessList]
  | cons v vs ih => simp [losslessList, ih]

theorem losslessFields_iff {fs : List (String × JVal)} :
    losslessFields fs = true ↔ ∀ kv ∈ fs, lossless kv.2 = true := by
  induction fs with
  | nil => simp [losslessFields]
  | cons kv tl ih =>
    obtain ⟨k, v⟩ := kv
    simp [losslessFields, ih]

theorem toISOString_ne_empty (d : JDate) : toISOString d ≠ "" := by
  intro h
  have h2 : toISOChars d = [] := by
    have := congrArg String.data h
    simpa [toISOString] using this
  simp [toISOChars, pad4c] at h2

/-- Encoding preserves truthiness on the lossless fragment. -/
theorem jsTruthy_safeInv {v : JVal} (h : lossless v = true) :
    jsTruthy (jsonMakeObjectSafeInv v) = jsTruthy v := by
  cases v with
  | null => simp
  | str s => simp
  | num n => simp
  | boolV b => simp
  | date d => simp [jsTruthy, toISOString_ne_empty d]
  | binary bs => rw [lossless] at h; simp at h
  | arr xs => simp [jsTruthy]
  | set xs => rw [lossless] at h; simp at h
  | obj fs => simp [jsTruthy]
  | path s => rw [lossless] at h; simp at h
  | hostObj fs s => rw [lossless] at h; simp at h

/-- Field lookup commutes with value-wise mapping of the entries. -/
theorem lookupField_map (fs : List (String × JVal)) (f : JVal → JVal) (k : String) :
    lookupField (fs.map (fun kv => (kv.1, f kv.2))) k =
      (lookupField fs k).map f := by
  induction fs with
  | nil => rfl
  | cons kv tl ih =>
    obtain ⟨k0, v0⟩ := kv
    by_cases hk : k0 = k
    · simp [lookupField, List.find?_cons, hk]
    · simpa [lookupField, List.find?_cons, hk] using ih

/-- A value found by `lookupField` in a lossless field list is lossless. -/
theorem lossless_of_lookupField {fs : List (String × JVal)} {k : String} {v : JVal}
    (hf : losslessFields fs = true) (h : lookupField fs k = some v) :
    lossless v = true := by
  have hmem : ∃ kv ∈ fs, kv.2 = v := by
    simp only [lookupField, Option.map_eq_some'] at h
    obtain ⟨kv, hfind, hv⟩ := h
    exact ⟨kv, List.mem_of_find?_eq_some hfind, hv⟩
  obtain ⟨kv, hkv, hv⟩ := hmem
  exact hv ▸ losslessFields_iff.mp hf kv hkv

theorem jsTruthyOpt_lookup_safeInv {fs : List (String × JVal)}
    (hf : losslessFields fs = true) (k : String) :
    jsTruthyOpt (lookupField (fs.map (fun kv => (kv.1, jsonMakeObjectSafeInv kv.2))) k) =
      jsTruthyOpt (lookupField fs k) := by
  rw [lookupField_map]
  cases hl : lookupField fs k with
  | none => simp [jsTruthyOpt]
  | some v =>
    simp only [Option.map_some, jsTruthyOpt]
    exact jsTruthy_safeInv (lossless_of_lookupField hf hl)

/-- Decode after encode (invoke codec) is the identity on the lossless
fragment. -/
theorem restoreSync_safeInv_roundtrip :
    ∀ v, lossless v = true → jsonRestoreObjectSync (jsonMakeObjectSafeInv v) = v := by
  intro v
  induction v using JVal.indMem with
  | hnull => intro _; simp
  | hstr s =>
    intro h
    rw [lossless] at h
    simp only [Bool.not_eq_eq_eq_not, Bool.not_true] at h
    simp [safeInv_str, restoreSync_str, h]
  | hnum n => intro _; simp
  | hbool b => intro _; simp
  | hdate d =>
    intro h
    rw [lossless] at h
    have hv : d.Valid := of_decide_eq_true h
    simp only [safeInv_date, restoreSync_str, toISOString]
    rw [isoPrefixTest_toISOChars, parseIsoChars_toISOChars hv]
    simp
  | hbin bs => intro h; rw [lossless] at h; simp at h
  | hpath s => intro h; rw [lossless] at h; simp at h
  | harr xs ih =>
    intro h
    rw [lossless] at h
    have hmem := losslessList_iff.mp h
    simp only [safeInv_arr, restoreSync_arr, List.map_map]
    have he : ∀ x ∈ xs, (jsonRestoreObjectSync ∘ jsonMakeObjectSafeInv) x = id x :=
      fun x hx => ih x hx (hmem x hx)
    rw [List.map_congr_left he, List.map_id]
  | hset xs ih => intro h; rw [lossless] at h; simp at h
  | hobj fs ih =>
    intro h
    rw [lossless] at h
    simp only [Bool.and_eq_true, Bool.not_eq_eq_eq_not, Bool.not_true] at h
    obtain ⟨hmedia, hfields⟩ := h
    simp only [safeInv_obj, restoreSync_obj]
    rw [jsTruthyOpt_lookup_safeInv hfields "media_type",
      jsTruthyOpt_lookup_safeInv hfields "bytes", hmedia]
    simp only [Bool.false_eq_true, if_false, List.map_map]
    have hf := losslessFields_iff.mp hfields
    have he : ∀ kv ∈ fs,
        ((fun kv => ((kv : String × JVal).1, jsonRestoreObjectSync kv.2)) ∘
          (fun kv => ((kv : String × JVal).1, jsonMakeObjectSafeInv kv.2))) kv = id kv := by
      intro kv hkv
      simp only [Function.comp_apply, id_eq]
      rw [ih kv hkv (hf kv hkv)]
    rw [List.map_congr_left he, List.map_id]
  | hhost fs s ih => intro h; rw [lossless] at h; simp at h

/-! ### Sync/async decoder agreement -/

mutual
/-- Values none of whose strings match the synchronous decoder's date
sniff `/^\d{4}-\d{2}-\d{2}T/`.  (A sniff-matching string may be parsed
into a `Date` by the runtime even outside the canonical `toISOString`
form, so all such strings are excluded.) -/
def dateFree : JVal → Bool
  | .str s => !(isoPrefixTest s.data)
  | .arr xs => dateFreeList xs
  | .obj fs => dateFreeFields fs
  | _ => true
termination_by v => sizeOf v
decreasing_by
  all_goals simp_wf
  all_goals omega

/-- All list elements date-free. -/
def dateFreeList : List JVal → Bool
  | [] => true
  | v :: vs => dateFree v && dateFreeList vs
termination_by xs => sizeOf xs
decreasing_by
  all_goals simp_wf
  all_goals omega

/-- All field values date-free. -/
def dateFreeFields : List (String × JVal) → Bool
  | [] => true
  | (_, v) :: fs => dateFree v && dateFreeFields fs
termination_by fs => sizeOf fs
decreasing_by
  all_goals simp_wf
  all_goals omega
end

theorem dateFreeList_iff {xs : List JVal} :
    dateFreeList xs = true ↔ ∀ x ∈ xs, dateFree x = true := by
  induction xs with
  | nil => simp [dateFreeList]
  | cons v vs ih => simp [dateFreeList, ih]

theorem dateFreeFields_iff {fs : List (String × JVal)} :
    dateFreeFields fs = true ↔ ∀ kv ∈ fs, dateFree kv.2 = true := by
  induction fs with
  | nil => simp [dateFreeFields]
  | cons kv tl ih =>
    obtain ⟨k, v⟩ := kv
    simp [dateFreeFields, ih]

/-- On date-free values the deferred decoder agrees with the immediate
one. -/
theorem restoreAsync_eq_restoreSync :
    ∀ v, dateFree v = true → jsonRestoreObjectAsync v = jsonRestoreObjectSync v := by
  intro v
  induction v using JVal.indMem with
  | hnull => intro _; simp
  | hstr s =>
    intro h
    rw [dateFree] at h
    simp only [Bool.not_eq_eq_eq_not, Bool.not_true] at h
    simp [restoreAsync_str, restoreSync_str, h]
  | hnum n => intro _; simp
  | hbool b => intro _; simp
  | hdate d => intro _; simp
  | hbin bs => intro _; simp
  | hpath s => intro _; simp
  | harr xs ih =>
    intro h
    rw [dateFree] at h
    have hmem := dateFreeList_iff.mp h
    simp only [restoreAsync_arr, restoreSync_arr]
    exact congrArg _ (List.map_congr_left (fun x hx => ih x hx (hmem x hx)))
  | hset xs ih => intro _; simp
  | hobj fs ih =>
    intro h
    rw [dateFree] at h
    have hmem := dateFreeFields_iff.mp h
    simp only [restoreAsync_obj, restoreSync_obj]
    cases hc : jsTruthyOpt (lookupField fs "media_type") &&
        jsTruthyOpt (lookupField fs "bytes") with
    | true => simp
    | false =>
      simp only [Bool.false_eq_true, if_false]
      exact congrArg _ (List.map_congr_left (fun kv hkv => by
        rw [ih kv hkv (hmem kv hkv)]))
  | hhost fs s ih => intro _; simp

/-! ## Claim C1 -/

/-- C1 (counterexample): the round-trip is not the identity on binary
values (a one-byte buffer encodes to the base64 string `AA==`, which
decodes to that same string, not to a buffer), nor on strings that match
the ISO-8601 date prefix (they decode to a `Date`). -/
theorem C1_counterexample :
    jsonRestoreObjectSync (jsonMakeObjectSafeInv (.binary [0])) = .str "AA==" ∧
    jsonRestoreObjectSync (jsonMakeObjectSafeInv (.binary [0])) ≠ .binary [0] ∧
    jsonRestoreObjectSync (jsonMakeObjectSafeInv (.str "2024-01-01T00:00:00.000Z")) =
      .date ⟨2024, 1, 1, 0, 0, 0, 0⟩ ∧
    jsonRestoreObjectSync (jsonMakeObjectSafeInv (.str "2024-01-01T00:00:00.000Z")) ≠
      .str "2024-01-01T00:00:00.000Z" := by
  have hb : btoa [0] = "AA==" := rfl
  have e1 : jsonRestoreObjectSync (jsonMakeObjectSafeInv (.binary [0])) = .str "AA==" := by
    rw [safeInv_binary, hb, restoreSync_str]
    rfl
  have e2 : jsonRestoreObjectSync
      (jsonMakeObjectSafeInv (.str "2024-01-01T00:00:00.000Z")) =
        .date ⟨2024, 1, 1, 0, 0, 0, 0⟩ := by
    rw [safeInv_str, restoreSync_str]
    rfl
  refine ⟨e1, ?_, e2, ?_⟩
  · rw [e1]; intro h; exact JVal.noConfusion h
  · rw [e2]; intro h; exact JVal.noConfusion h

/-- C1 (amended): `Decode(Encode(v))` is structurally equal to `v` for
every value in the lossless fragment: `null`, numbers, booleans, valid
`Date`s, strings that do not match the decoder's date sniff
`/^\d{4}-\d{2}-\d{2}T/`, and arrays and plain objects of such values
none of which carries truthy `media_type` and `bytes` fields.  Binary
buffers/views and `Set`s are not round-trippable (a buffer decodes to
its base64 string, a `Set` to an array), and sniff-matching strings are
excluded: the runtime may parse them into `Date`s (it certainly does on
the canonical ISO form, and host-dependently on other ISO forms). -/
theorem C1_roundtrip_lossless (v : JVal) (h : lossless v = true) :
    jsonRestoreObjectSync (jsonMakeObjectSafeInv v) = v :=
  restoreSync_safeInv_roundtrip v h

/-- C1 (witness): the amended round-trip at a concrete nested value. -/
theorem C1_witness :
    lossless (.obj [("name", .str "a"), ("count", .num 42),
      ("created", .date ⟨2024, 1, 1, 0, 0, 0, 0⟩),
      ("flags", .arr [.boolV true, .null])]) = true ∧
    jsonRestoreObjectSync (jsonMakeObjectSafeInv
      (.obj [("name", .str "a"), ("count", .num 42),
        ("created", .date ⟨2024, 1, 1, 0, 0, 0, 0⟩),
        ("flags", .arr [.boolV true, .null])])) =
      .obj [("name", .str "a"), ("count", .num 42),
        ("created", .date ⟨2024, 1, 1, 0, 0, 0, 0⟩),
        ("flags", .arr [.boolV true, .null])] := by
  have hl : lossless (.obj [("name", .str "a"), ("count", .num 42),
      ("created", .date ⟨2024, 1, 1, 0, 0, 0, 0⟩),
      ("flags", .arr [.boolV true, .null])]) = true := by
    rw [lossless]
    simp [losslessFields, losslessList, lossless, lookupField, List.find?,
      jsTruthyOpt, JDate.Valid, daysInMonth, isLeap, isoPrefixTest]
  exact ⟨hl, C1_roundtrip_lossless _ hl⟩

/-! ## Claim C5 -/

/-- C5: the invoke-copy codec maps a `Set` to the ordered element-wise
encoded sequence, but the connection-manager copy (the codec `send`
uses) maps every `Set` to the empty mapping `{}`: its plain-object
branch precedes its `Array`/`Set` branch and `Object.entries` of a `Set`
is empty.  Evaluated at the failing input `Set {1, 2}`. -/
theorem C5_set_send_codec :
    (∀ xs, jsonMakeObjectSafeInv (.set xs) = .arr (xs.map jsonMakeObjectSafeInv)) ∧
    jsonMakeObjectSafeCM (.set [.num 1, .num 2]) = .obj [] ∧
    jsonMakeObjectSafeInv (.set [.num 1, .num 2]) = .arr [.num 1, .num 2] := by
  refine ⟨fun xs => safeInv_set xs, safeCM_set _, ?_⟩
  simp

/-! ## Claim C9 -/

/-- C9 (counterexample): the two decode variants are not identical in
semantics: the immediate variant parses an ISO-8601-prefixed string into
a `Date`, while the deferred variant returns every string unchanged (its
string branch returns the input in both arms). -/
theorem C9_counterexample :
    jsonRestoreObjectAsync (.str "2024-01-01T00:00:00.000Z") =
      .str "2024-01-01T00:00:00.000Z" ∧
    jsonRestoreObjectSync (.str "2024-01-01T00:00:00.000Z") =
      .date ⟨2024, 1, 1, 0, 0, 0, 0⟩ ∧
    jsonRestoreObjectAsync (.str "2024-01-01T00:00:00.000Z") ≠
      jsonRestoreObjectSync (.str "2024-01-01T00:00:00.000Z") := by
  have e1 : jsonRestoreObjectAsync (.str "2024-01-01T00:00:00.000Z") =
      .str "2024-01-01T00:00:00.000Z" := restoreAsync_str _
  have e2 : jsonRestoreObjectSync (.str "2024-01-01T00:00:00.000Z") =
      .date ⟨2024, 1, 1, 0, 0, 0, 0⟩ := by
    rw [restoreSync_str]
    rfl
  refine ⟨e1, e2, ?_⟩
  rw [e1, e2]
  intro h
  exact JVal.noConfusion h

/-- C9 (amended): the deferred decoder has the same semantics as the
immediate one on every value none of whose strings match the date sniff
`/^\d{4}-\d{2}-\d{2}T/` — both render media mappings as data-URI
strings and recurse into sequences preserving input order — but the
deferred variant never parses strings into temporal values, while the
immediate one does (certainly on the canonical ISO form, and
host-dependently on other sniff-matching ISO forms, which are therefore
excluded from the agreement fragment). -/
theorem C9_async_eq_sync_dateFree (v : JVal) (h : dateFree v = true) :
    jsonRestoreObjectAsync v = jsonRestoreObjectSync v :=
  restoreAsync_eq_restoreSync v h

/-- C9 (witness): the amended agreement at a concrete media-bearing
value. -/
theorem C9_witness :
    dateFree (.arr [.obj [("media_type", .str "image/png"), ("bytes", .str "AA==")],
      .str "plain"]) = true ∧
    jsonRestoreObjectAsync
        (.arr [.obj [("media_type", .str "image/png"), ("bytes", .str "AA==")],
          .str "plain"]) =
      jsonRestoreObjectSync
        (.arr [.obj [("media_type", .str "image/png"), ("bytes", .str "AA==")],
          .str "plain"]) := by
  have hd : dateFree (.arr [.obj [("media_type", .str "image/png"),
      ("bytes", .str "AA==")], .str "plain"]) = true := by
    rw [dateFree]
    simp [dateFreeList, dateFreeFields, dateFree, isoPrefixTest]
  exact ⟨hd, C9_async_eq_sync_dateFree _ hd⟩

/-! ## The event dispatcher

`eventListeners` is a plain object mapping an event name to an array of
listener functions; listeners are identified here by numeric identities,
so that the JS reference comparison `l !== listener` is identity
comparison.  Keys of the registry are pairwise distinct (JS object). -/

/-- The `eventListeners` registry. -/
def Registry : Type := List (String × List Nat)

/-- Read `eventListeners[event]` (absent key: `undefined`). -/
def listenersOf (reg : Registry) (event : String) : Option (List Nat) :=
  (List.find? (fun kv => kv.1 == event) reg).map (fun kv => kv.2)

/-- Assign `eventListeners[event] = ls`. -/
def setEvent : Registry → String → List Nat → Registry
  | [], e, ls => [(e, ls)]
  | kv :: tl, e, ls => if kv.1 == e then (e, ls) :: tl else kv :: setEvent tl e ls

/-- `addEventListener`: create the array if missing, then push. -/
def addEventListener (reg : Registry) (event : String) (l : Nat) : Registry :=
  match listenersOf reg event with
  | none => setEvent reg event [l]
  | some ls => setEvent reg event (ls ++ [l])

/-- `removeEventListener`: replace the event's array by its filtering
`listeners.filter(x => x !== listener)`; no-op when the event has no
array. -/
def removeEventListener (reg : Registry) (event : String) (l : Nat) : Registry :=
  match listenersOf reg event with
  | none => reg
  | some ls => setEvent reg event (ls.filter (fun x => x ≠ l))

/-- `removeAllEventListeners`: clear the event's array when present. -/
def removeAllEventListeners (reg : Registry) (event : String) : Registry :=
  match listenersOf reg event with
  | none => reg
  | some _ => setEvent reg event []

/-- `dispatchEvent` over one listener array: `forEach(listener =>
listener(data))`.  `throws l d` tells whether listener `l` raises on
`d`.  Result: the listeners invoked, in order, and whether an exception
escaped to the caller of dispatch (a raising listener aborts the
`forEach` and the exception propagates). -/
def dispatchRun (throws : Nat → JVal → Bool) : List Nat → JVal → List Nat × Bool
  | [], _ => ([], false)
  | l :: ls, d =>
    if throws l d then ([l], true)
    else
      let r := dispatchRun throws ls d
      (l :: r.1, r.2)

theorem dispatchRun_cons (throws : Nat → JVal → Bool) (l : Nat) (ls : List Nat)
    (d : JVal) :
    dispatchRun throws (l :: ls) d =
      if throws l d then ([l], true)
      else (l :: (dispatchRun throws ls d).1, (dispatchRun throws ls d).2) := rfl

/-- `dispatchEvent` on the registry. -/
def dispatchEvent (throws : Nat → JVal → Bool) (reg : Registry) (event : String)
    (d : JVal) : List Nat × Bool :=
  match listenersOf reg event with
  | none => ([], false)
  | some ls => dispatchRun throws ls d

theorem listenersOf_setEvent_self (reg : Registry) (e : String) (ls : List Nat) :
    listenersOf (setEvent reg e ls) e = some ls := by
  induction reg with
  | nil => simp [setEvent, listenersOf, List.find?]
  | cons kv tl ih =>
    by_cases hk : kv.1 = e
    · simp [setEvent, hk, listenersOf, List.find?]
    · simpa [setEvent, hk, listenersOf, List.find?_cons, hk] using ih

theorem count_filter_ne (ls : List Nat) (l g : Nat) (hg : g ≠ l) :
    (ls.filter (fun x => x ≠ l)).count g = ls.count g := by
  induction ls with
  | nil => rfl
  | cons a tl ih =>
    by_cases ha : a = l
    · have ih2 : List.count g (List.filter (fun x => !decide (x = l)) tl) =
          List.count g tl := by simpa using ih
      simp only [List.filter_cons, ha, List.count_cons]
      simpa [Ne.symm hg] using ih2
    · simp only [List.filter_cons, ha, List.count_cons]
      simp only [decide_not, decide_eq_false ha, Bool.not_false, if_true]
      rw [List.count_cons]
      congr 1
      simpa using ih

theorem listenersOf_setEvent_other (reg : Registry) {e e' : String} (ls : List Nat)
    (h : e' ≠ e) : listenersOf (setEvent reg e ls) e' = listenersOf reg e' := by
  have hne : (e == e') = false := by simp [Ne.symm h]
  induction reg with
  | nil => simp [setEvent, listenersOf, List.find?, hne]
  | cons kv tl ih =>
    by_cases hk : kv.1 = e
    · have hkv : (kv.1 == e') = false := by simp [hk, Ne.symm h]
      simp [setEvent, hk, listenersOf, List.find?_cons, hne, hkv]
    · by_cases hk' : kv.1 = e'
      · simp [setEvent, hk, listenersOf, List.find?_cons, hk', h]
      · have hkv : (kv.1 == e') = false := by simp [hk']
        simpa [setEvent, hk, listenersOf, List.find?_cons, hkv] using ih

/-! ## Claim C6 -/

/-- C6 (counterexample): with the listener array `[5, 5]` for
`"message"`, `off("message", 5)` leaves the empty array, not the
claimed removal of only the first match (which would leave `[5]`). -/
theorem C6_counterexample :
    removeEventListener [("message", [5, 5]), ("open", [7])] "message" 5 =
      [("message", []), ("open", [7])] ∧
    listenersOf (removeEventListener [("message", [5, 5]), ("open", [7])]
      "message" 5) "message" ≠ some [5] := by
  constructor
  · rfl
  · intro h
    rw [show removeEventListener [("message", [5, 5]), ("open", [7])] "message" 5 =
        [("message", []), ("open", [7])] from rfl] at h
    simp [listenersOf, List.find?] at h

/-- C6 (amended): `off(event, fn)` removes every occurrence identical to
`fn` from that event's listener array — not only the first — keeping the
remaining listeners in order (the result is a sublist with `fn`'s count
zero and all other counts unchanged), and leaving every other event's
array untouched. -/
theorem C6_off_removes_all_occurrences (reg : Registry) (event : String) (l : Nat)
    (ls : List Nat) (h : listenersOf reg event = some ls) :
    listenersOf (removeEventListener reg event l) event =
        some (ls.filter (fun x => x ≠ l)) ∧
      (ls.filter (fun x => x ≠ l)).count l = 0 ∧
      (∀ g, g ≠ l → (ls.filter (fun x => x ≠ l)).count g = ls.count g) ∧
      (ls.filter (fun x => x ≠ l)).Sublist ls ∧
      (∀ e, e ≠ event →
        listenersOf (removeEventListener reg event l) e = listenersOf reg e) := by
  refine ⟨?_, ?_, ?_, List.filter_sublist ls, ?_⟩
  · rw [removeEventListener, h]
    exact listenersOf_setEvent_self reg event _
  · rw [List.count_eq_zero]
    intro hmem
    have := List.of_mem_filter hmem
    simp at this
  · intro g hg
    exact count_filter_ne ls l g hg
  · intro e he
    rw [removeEventListener, h]
    exact listenersOf_setEvent_other reg _ he

/-- C6 (witness): the amended removal at a concrete registry. -/
theorem C6_witness :
    listenersOf [("message", [5, 9, 5]), ("open", [7])] "message" = some [5, 9, 5] ∧
    listenersOf (removeEventListener [("message", [5, 9, 5]), ("open", [7])]
        "message" 5) "message" = some [9] ∧
    listenersOf (removeEventListener [("message", [5, 9, 5]), ("open", [7])]
        "message" 5) "open" = some [7] := by
  have h : listenersOf [("message", [5, 9, 5]), ("open", [7])] "message" =
      some [5, 9, 5] := rfl
  have hmain := C6_off_removes_all_occurrences
    [("message", [5, 9, 5]), ("open", [7])] "message" 5 [5, 9, 5] h
  refine ⟨h, ?_, ?_⟩
  · rw [hmain.1]
    rfl
  · rw [hmain.2.2.2.2 "open" (by decide)]
    rfl

/-! ## Claim C7 -/

/-- C7 (counterexample): with listeners `[1, 2]` for `"message"` where
listener `1` throws, dispatch invokes only listener `1`: the exception
escapes to the caller of dispatch and listener `2`, registered later, is
never invoked — the claim requires `([1, 2], false)`. -/
theorem C7_counterexample :
    dispatchEvent (fun l _ => l == 1) [("message", [1, 2])] "message" .null =
      ([1], true) ∧
    (([1], true) : List Nat × Bool) ≠ ([1, 2], false) := by
  constructor
  · rfl
  · decide

/-- C7 (amended): a listener failure is not isolated: dispatch invokes
listeners in order up to and including the first throwing one, skips all
later-registered listeners, and propagates the exception to the caller
of dispatch; only when no listener throws are all listeners invoked with
dispatch returning normally. -/
theorem C7_dispatch_propagates_failure (throws : Nat → JVal → Bool) (d : JVal) :
    (∀ pre f post, (∀ l ∈ pre, throws l d = false) → throws f d = true →
      dispatchRun throws (pre ++ f :: post) d = (pre ++ [f], true)) ∧
    (∀ ls, (∀ l ∈ ls, throws l d = false) → dispatchRun throws ls d = (ls, false)) := by
  constructor
  · intro pre f post hpre hf
    induction pre with
    | nil => simp [dispatchRun_cons, hf]
    | cons a tl ih =>
      have ha : throws a d = false := hpre a (by simp)
      rw [List.cons_append, dispatchRun_cons, ha]
      simp only [Bool.false_eq_true, if_false]
      rw [ih (fun l hl => hpre l (by simp [hl]))]
      simp
  · intro ls hls
    induction ls with
    | nil => rfl
    | cons a tl ih =>
      have ha : throws a d = false := hls a (by simp)
      rw [dispatchRun_cons, ha]
      simp only [Bool.false_eq_true, if_false]
      rw [ih (fun l hl => hls l (by simp [hl]))]

/-- C7 (witness): the amended dispatch behaviour at a concrete listener
list where listener `2` throws. -/
theorem C7_witness :
    dispatchRun (fun l _ => l == 2) ([1] ++ 2 :: [3]) .null = ([1] ++ [2], true) ∧
    dispatchRun (fun l _ => l == 2) [4, 5] .null = ([4, 5], false) :=
  ⟨(C7_dispatch_propagates_failure (fun l _ => l == 2) .null).1 [1] 2 [3]
      (by decide) (by decide),
    (C7_dispatch_propagates_failure (fun l _ => l == 2) .null).2 [4, 5] (by decide)⟩

/-! ## The invocation broker

`invoke`, `transformCallback` and the inbound `"message"` handler.
`window._<id>` one-shot resolvers are a map from the numeric id to a
`Callback`; the deferred results (`Promise`s) are a map from an internal
counter to a `PromiseState` that settles at most once.  `uid()` draws
random `Uint32` values; the random source is modelled as a supplied
stream of naturals.  `invoke`'s resolver callbacks are plain arrow
functions, so `transformCallback` takes the synchronous decode path for
them. -/

/-- Whether a registered resolver resolves or rejects its deferred. -/
inductive Role where
  | success
  | failure
deriving DecidableEq, Repr

/-- A `window._<id>` callback installed by `transformCallback`. -/
structure Callback where
  once : Bool
  promise : Nat
  role : Role
deriving DecidableEq, Repr

/-- How a deferred result was settled. -/
inductive Settled where
  | resolvedV (v : JVal)
  | rejectedV (v : JVal)
  | rejectedErr (msg : String)
deriving Repr

/-- A deferred result: settles at most once (first settlement wins). -/
inductive PromiseState where
  | pending
  | settled (s : Settled)
deriving Repr

/-- Broker-visible state: the connection-open flag, the `window._<id>`
registry, the deferred results, the frames handed to `ws.send` (already
encoded by the connection-manager codec), the remaining `uid()` stream,
and the next internal promise number. -/
structure SysState where
  connected : Bool
  window : List (Nat × Callback)
  promises : List (Nat × PromiseState)
  sent : List JVal
  uidStream : List Nat
  nextPromise : Nat
deriving Repr

/-- Read `window._<i>`. -/
def lookupWindow (w : List (Nat × Callback)) (i : Nat) : Option Callback :=
  (List.find? (fun kv => kv.1 == i) w).map (fun kv => kv.2)

/-- Delete (or overwrite-prepare) `window._<i>`. -/
def eraseWindow (w : List (Nat × Callback)) (i : Nat) : List (Nat × Callback) :=
  w.filter (fun kv => kv.1 ≠ i)

/-- Read a deferred result's state. -/
def lookupPromise (ps : List (Nat × PromiseState)) (p : Nat) : Option PromiseState :=
  (List.find? (fun kv => kv.1 == p) ps).map (fun kv => kv.2)

/-- Settle a deferred result: a pending entry becomes settled, an
already-settled entry is unchanged (a promise resolves or rejects at
most once). -/
def settle (ps : List (Nat × PromiseState)) (p : Nat) (s : Settled) :
    List (Nat × PromiseState) :=
  ps.map (fun kv =>
    if kv.1 = p then
      (kv.1, match kv.2 with
        | .pending => .settled s
        | q => q)
    else kv)

/-- `args ?? {}`. -/
def jsArgsOr (args : JVal) : JVal :=
  match args with
  | .null => .obj []
  | a => a

/-- The object literal `invoke` builds: note the field is `cmd`, not
`command`. -/
def invokeMsg (cmd : String) (rid eid : Nat) (payload : JVal) : JVal :=
  .obj [("cmd", .str cmd), ("result_id", .num rid), ("error_id", .num eid),
    ("payload", payload)]

/-- `invoke(cmd, args)`: when the connection manager does not report
open, reject the fresh deferred immediately and do nothing else;
otherwise encode the arguments, allocate the two correlation ids,
register both one-shot resolvers (`Object.defineProperty` overwrites an
existing property of the same name), and hand the message to
`PyOrionConnections.send`, which re-encodes it with the
connection-manager codec and transmits (the open check in `send` sees
the same state `invoke` just checked).  Returns the new state and the
promise id of the returned deferred. -/
def invoke (st : SysState) (cmd : String) (args : JVal) : SysState × Nat :=
  let pid := st.nextPromise
  if st.connected then
    let py_args := jsonMakeObjectSafeInv (jsArgsOr args)
    let rid := st.uidStream.headD 0
    let eid := st.uidStream.tail.headD 0
    let w1 := (rid, ⟨true, pid, .success⟩) :: eraseWindow st.window rid
    let w2 := (eid, ⟨true, pid, .failure⟩) :: eraseWindow w1 eid
    ({ st with
        nextPromise := pid + 1,
        promises := (pid, .pending) :: st.promises,
        uidStream := st.uidStream.tail.tail,
        window := w2,
        sent := st.sent ++ [jsonMakeObjectSafeCM (invokeMsg cmd rid eid py_args)] },
      pid)
  else
    ({ st with
        nextPromise := pid + 1,
        promises := (pid, .settled (.rejectedErr "Socket is not connected or unavailable!")) ::
          st.promises },
      pid)

/-- Run a registered resolver: a one-shot resolver first deletes its own
`window` property, then decodes the payload synchronously and settles
its deferred according to its role.  A missing payload field is
`undefined`, which decodes to `null`. -/
def runCallback (st : SysState) (i : Nat) (cb : Callback) (payload : Option JVal) :
    SysState :=
  let st1 := if cb.once then { st with window := eraseWindow st.window i } else st
  let decoded := jsonRestoreObjectSync (payload.getD .null)
  match cb.role with
  | .success => { st1 with promises := settle st1.promises cb.promise (.resolvedV decoded) }
  | .failure => { st1 with promises := settle st1.promises cb.promise (.rejectedV decoded) }

/-- Read a field of the decoded inbound mapping (non-mappings destructure
to `undefined` fields). -/
def getField : JVal → String → Option JVal
  | .obj fs, k => lookupField fs k
  | _, _ => none

/-- `if (id) { const prop = `_${id}`; if (window[prop]) window[prop](x) }`:
fire the resolver named by a correlation-id field, if the field is
truthy and such a resolver exists.  A non-numeric or negative id names a
property that was never registered. -/
def fireId (st : SysState) (idv : Option JVal) (payload : Option JVal) : SysState :=
  if jsTruthyOpt idv then
    match idv with
    | some (.num n) =>
      if n < 0 then st
      else
        match lookupWindow st.window n.toNat with
        | some cb => runCallback st n.toNat cb payload
        | none => st
    | _ => st
  else st

/-- The `PyOrionConnections.on("message", ...)` handler, after
`JSON.parse` succeeded with result `parsed`.  The parse result is
re-normalised through the invoke codec; destructuring `null` throws and
the `catch` drops the message, so `null` leaves the state unchanged.
The handler is total: no error escapes it. -/
def handleParsed (st : SysState) (parsed : JVal) : SysState :=
  match parsed with
  | .null => st
  | p =>
    let data := jsonMakeObjectSafeInv p
    let st1 := fireId st (getField data "result_id") (getField data "result")
    fireId st1 (getField data "error_id") (getField data "error")

/-- The full handler: a frame that fails to parse is logged and dropped. -/
def handleRaw (st : SysState) (parsed : Option JVal) : SysState :=
  match parsed with
  | none => st
  | some p => handleParsed st p

@[simp] theorem lookupWindow_cons (j : Nat) (cb : Callback)
    (w : List (Nat × Callback)) (i : Nat) :
    lookupWindow ((j, cb) :: w) i = if j = i then some cb else lookupWindow w i := by
  by_cases h : j = i <;> simp [lookupWindow, List.find?_cons, h]

@[simp] theorem lookupWindow_erase_self (w : List (Nat × Callback)) (i : Nat) :
    lookupWindow (eraseWindow w i) i = none := by
  induction w with
  | nil => rfl
  | cons kv tl ih =>
    by_cases h : kv.1 = i
    · simpa [eraseWindow, List.filter_cons, h] using ih
    · simpa [eraseWindow, List.filter_cons, h, lookupWindow, List.find?_cons] using ih

@[simp] theorem eraseWindow_cons (k : Nat) (cb : Callback)
    (tl : List (Nat × Callback)) (i : Nat) :
    eraseWindow ((k, cb) :: tl) i =
      if k = i then eraseWindow tl i else (k, cb) :: eraseWindow tl i := by
  by_cases h : k = i <;> simp [eraseWindow, List.filter_cons, h]

theorem lookupWindow_erase_ne (w : List (Nat × Callback)) {i j : Nat} (h : j ≠ i) :
    lookupWindow (eraseWindow w i) j = lookupWindow w j := by
  induction w with
  | nil => rfl
  | cons kv tl ih =>
    obtain ⟨k, cb⟩ := kv
    rw [eraseWindow_cons]
    by_cases hk : k = i
    · rw [if_pos hk, ih, lookupWindow_cons, if_neg (by omega : ¬k = j)]
    · rw [if_neg hk, lookupWindow_cons, lookupWindow_cons, ih]

@[simp] theorem lookupPromise_cons (j : Nat) (q : PromiseState)
    (ps : List (Nat × PromiseState)) (p : Nat) :
    lookupPromise ((j, q) :: ps) p = if j = p then some q else lookupPromise ps p := by
  by_cases h : j = p <;> simp [lookupPromise, List.find?_cons, h]

theorem lookupPromise_settle_self (ps : List (Nat × PromiseState)) (p : Nat)
    (s : Settled) :
    lookupPromise (settle ps p s) p =
      (lookupPromise ps p).map (fun q =>
        match q with
        | .pending => .settled s
        | q => q) := by
  induction ps with
  | nil => rfl
  | cons kv tl ih =>
    by_cases h : kv.1 = p
    · simp [settle, h, lookupPromise, List.find?_cons]
    · have hb : (kv.1 == p) = false := by simp [h]
      simpa [settle, h, lookupPromise, List.find?_cons, hb] using ih

/-! ## Claim C2 -/

/-- C2: `invoke` while the connection manager does not report open
rejects the fresh deferred immediately with the connection-unavailable
error, sends no frame, allocates no correlation id (the `uid` stream is
untouched and no resolver is registered), and touches nothing else. -/
theorem C2_invoke_not_open (st : SysState) (cmd : String) (args : JVal)
    (h : st.connected = false) :
    ((invoke st cmd args).1).sent = st.sent ∧
    ((invoke st cmd args).1).window = st.window ∧
    ((invoke st cmd args).1).uidStream = st.uidStream ∧
    lookupPromise ((invoke st cmd args).1).promises (invoke st cmd args).2 =
      some (.settled (.rejectedErr "Socket is not connected or unavailable!")) := by
  simp [invoke, h, lookupPromise, List.find?_cons]

/-- C2 (witness): the not-open rejection at a concrete state. -/
theorem C2_witness :
    (⟨false, [], [], [], [4, 5], 0⟩ : SysState).connected = false ∧
    ((invoke ⟨false, [], [], [], [4, 5], 0⟩ "ping" .null).1).sent = [] ∧
    ((invoke ⟨false, [], [], [], [4, 5], 0⟩ "ping" .null).1).window = [] ∧
    ((invoke ⟨false, [], [], [], [4, 5], 0⟩ "ping" .null).1).uidStream = [4, 5] ∧
    lookupPromise ((invoke ⟨false, [], [], [], [4, 5], 0⟩ "ping" .null).1).promises
        (invoke ⟨false, [], [], [], [4, 5], 0⟩ "ping" .null).2 =
      some (.settled (.rejectedErr "Socket is not connected or unavailable!")) := by
  have h := C2_invoke_not_open ⟨false, [], [], [], [4, 5], 0⟩ "ping" .null rfl
  exact ⟨rfl, h.1, h.2.1, h.2.2.1, h.2.2.2⟩

/-! ## Claim C8 -/

/-- C8 (counterexample): the outbound wire message's command field is
named `cmd`, not `command`: at a concrete invocation the frame handed to
the socket is `{cmd, result_id, error_id, payload}` and has no
`command` field. -/
theorem C8_counterexample :
    ((invoke ⟨true, [], [], [], [7, 8], 0⟩ "echo" .null).1).sent =
      [.obj [("cmd", .str "echo"), ("result_id", .num 7), ("error_id", .num 8),
        ("payload", .obj [])]] ∧
    lookupField [("cmd", JVal.str "echo"), ("result_id", JVal.num 7),
        ("error_id", JVal.num 8), ("payload", JVal.obj [])] "command" = none ∧
    ["cmd", "result_id", "error_id", "payload"] ≠
      ["command", "result_id", "error_id", "payload"] := by
  refine ⟨?_, by rfl, by decide⟩
  simp [invoke, jsArgsOr, invokeMsg]

/-- C8 (amended): every outbound wire message built by `invoke` is a
mapping with exactly the four fields `cmd`, `result_id`, `error_id` and
`payload` — in that order, with `cmd` holding the invoked command
string and the ids the two freshly drawn correlation ids — not
`command` as the spec claims. -/
theorem C8_wire_message_fields (st : SysState) (cmd : String) (args : JVal)
    (h : st.connected = true) :
    ((invoke st cmd args).1).sent = st.sent ++
      [.obj [("cmd", .str cmd),
        ("result_id", .num (st.uidStream.headD 0)),
        ("error_id", .num (st.uidStream.tail.headD 0)),
        ("payload", jsonMakeObjectSafeCM (jsonMakeObjectSafeInv (jsArgsOr args)))]] := by
  simp [invoke, h, invokeMsg]

/-- C8 (witness): the amended wire shape at a concrete invocation. -/
theorem C8_witness :
    ((invoke ⟨true, [], [], [], [7, 8], 0⟩ "echo"
        (.obj [("x", .num 1)])).1).sent =
      [] ++ [.obj [("cmd", .str "echo"), ("result_id", .num 7), ("error_id", .num 8),
        ("payload", jsonMakeObjectSafeCM (jsonMakeObjectSafeInv
          (jsArgsOr (.obj [("x", .num 1)]))))]] :=
  C8_wire_message_fields ⟨true, [], [], [], [7, 8], 0⟩ "echo" (.obj [("x", .num 1)]) rfl

/-! ## The connection manager's reconnect bookkeeping -/

/-- Connection-manager state: the two flags, the configured interval,
the `reconnectTimer` variable (id of the most recently scheduled
timeout), the runtime's outstanding timeouts as `(id, delay)` pairs, and
a counter supplying fresh timeout ids. -/
structure ConnState where
  shouldReconnect : Bool
  autoReconnect : Bool
  reconnectInterval : Nat
  reconnectTimer : Option Nat
  pendingTimers : List (Nat × Nat)
  nextTimer : Nat
deriving DecidableEq, Repr

/-- `PyOrionConnections.connect()` (with a configured URL): set
`shouldReconnect` from the auto-reconnect config and install a fresh
socket's handlers.  Timers are untouched. -/
def connectCM (st : ConnState) : ConnState :=
  { st with shouldReconnect := st.autoReconnect }

/-- The `ws.onclose` handler's timer logic: when `shouldReconnect` is
set, schedule `connect` after the configured interval and overwrite the
`reconnectTimer` variable with the new timeout's id.  The previously
scheduled timeout, if any, is not cleared. -/
def oncloseCM (st : ConnState) : ConnState :=
  if st.shouldReconnect then
    { st with
        reconnectTimer := some st.nextTimer,
        pendingTimers := st.pendingTimers ++ [(st.nextTimer, st.reconnectInterval)],
        nextTimer := st.nextTimer + 1 }
  else st

/-- `PyOrionConnections.close(code, reason)`: clear `shouldReconnect`,
cancel the timeout the `reconnectTimer` variable names (only that one),
and close the socket. -/
def closeCM (st : ConnState) : ConnState :=
  { st with
      shouldReconnect := false,
      pendingTimers :=
        match st.reconnectTimer with
        | some t => st.pendingTimers.filter (fun kv => kv.1 ≠ t)
        | none => st.pendingTimers }

/-- A scheduled timeout fires: it leaves the timer table and runs
`connect`. -/
def fireTimer (st : ConnState) (t : Nat) : ConnState :=
  if st.pendingTimers.any (fun kv => kv.1 == t) then
    connectCM { st with pendingTimers := st.pendingTimers.filter (fun kv => kv.1 ≠ t) }
  else st

/-! ## Claim C4 -/

/-- C4: after one unsolicited close with auto-reconnect on, exactly one
reconnect timeout is outstanding, at the configured interval — but a
second close event before that timeout fires schedules a second timeout
without clearing the first, leaving two concurrently outstanding
reconnect timers (`onclose` never calls `clearTimeout`); reachable, for
example, when `connect()` is called again while a reconnect timer is
pending and both sockets emit `close`. -/
theorem C4_second_close_schedules_second_timer :
    (oncloseCM ⟨true, true, 3000, none, [], 0⟩).pendingTimers = [(0, 3000)] ∧
    (oncloseCM (oncloseCM ⟨true, true, 3000, none, [], 0⟩)).pendingTimers =
      [(0, 3000), (1, 3000)] ∧
    ((oncloseCM (oncloseCM ⟨true, true, 3000, none, [], 0⟩)).pendingTimers).length = 2 ∧
    (oncloseCM (oncloseCM ⟨true, true, 3000, none, [], 0⟩)).reconnectTimer = some 1 := by
  refine ⟨rfl, rfl, rfl, rfl⟩

/-- Effect of an inbound `{result_id: i, result: v}` message: when a
resolver is registered under `i` it is invoked (the payload decodes
through the invoke codec's normalisation and the synchronous restore),
otherwise nothing happens. -/
theorem handleParsed_result_msg (st : SysState) (i : Nat) (v : JVal) (hi : i ≠ 0) :
    handleParsed st (.obj [("result_id", .num (i : Int)), ("result", v)]) =
      (match lookupWindow st.window i with
       | some cb => runCallback st i cb (some (jsonMakeObjectSafeInv v))
       | none => st) := by
  have htru : jsTruthyOpt (some (.num (i : Int))) = true := by
    simp [jsTruthyOpt, jsTruthy, hi]
  have hpos : ¬((i : Int) < 0) := by omega
  have hnontru : jsTruthyOpt (none : Option JVal) = false := rfl
  have s1 : (("result_id" : String) == "result_id") = true := by decide
  have s2 : (("result" : String) == "result_id") = false := by decide
  have s3 : (("result_id" : String) == "result") = false := by decide
  have s4 : (("result" : String) == "result") = true := by decide
  have s5 : (("result_id" : String) == "error_id") = false := by decide
  have s6 : (("result" : String) == "error_id") = false := by decide
  have s7 : (("result_id" : String) == "error") = false := by decide
  have s8 : (("result" : String) == "error") = false := by decide
  cases hcb : lookupWindow st.window i with
  | some cb =>
    simp only [handleParsed, safeInv_obj, List.map_cons, List.map_nil, safeInv_num,
      getField, lookupField, List.find?_cons, List.find?_nil,
      s1, s2, s3, s4, s5, s6, s7, s8, Option.map_some, Option.map_none]
    simp [fireId, htru, hpos, Int.toNat_natCast, hcb, hnontru]
  | none =>
    simp only [handleParsed, safeInv_obj, List.map_cons, List.map_nil, safeInv_num,
      getField, lookupField, List.find?_cons, List.find?_nil,
      s1, s2, s3, s4, s5, s6, s7, s8, Option.map_some, Option.map_none]
    simp [fireId, htru, hpos, Int.toNat_natCast, hcb, hnontru]

/-- Effect of an inbound `{error_id: i, error: v}` message. -/
theorem handleParsed_error_msg (st : SysState) (i : Nat) (v : JVal) (hi : i ≠ 0) :
    handleParsed st (.obj [("error_id", .num (i : Int)), ("error", v)]) =
      (match lookupWindow st.window i with
       | some cb => runCallback st i cb (some (jsonMakeObjectSafeInv v))
       | none => st) := by
  have htru : jsTruthyOpt (some (.num (i : Int))) = true := by
    simp [jsTruthyOpt, jsTruthy, hi]
  have hpos : ¬((i : Int) < 0) := by omega
  have hnontru : jsTruthyOpt (none : Option JVal) = false := rfl
  have s1 : (("error_id" : String) == "result_id") = false := by decide
  have s2 : (("error" : String) == "result_id") = false := by decide
  have s3 : (("error_id" : String) == "result") = false := by decide
  have s4 : (("error" : String) == "result") = false := by decide
  have s5 : (("error_id" : String) == "error_id") = true := by decide
  have s6 : (("error" : String) == "error_id") = false := by decide
  have s7 : (("error_id" : String) == "error") = false := by decide
  have s8 : (("error" : String) == "error") = true := by decide
  cases hcb : lookupWindow st.window i with
  | some cb =>
    simp only [handleParsed, safeInv_obj, List.map_cons, List.map_nil, safeInv_num,
      getField, lookupField, List.find?_cons, List.find?_nil,
      s1, s2, s3, s4, s5, s6, s7, s8, Option.map_some, Option.map_none]
    simp [fireId, htru, hpos, Int.toNat_natCast, hcb, hnontru]
  | none =>
    simp only [handleParsed, safeInv_obj, List.map_cons, List.map_nil, safeInv_num,
      getField, lookupField, List.find?_cons, List.find?_nil,
      s1, s2, s3, s4, s5, s6, s7, s8, Option.map_some, Option.map_none]
    simp [fireId, htru, hpos, Int.toNat_natCast, hcb, hnontru]

/-! ## Claim C3 -/

/-- C3: a registered one-shot resolver is removed from `window` upon its
first invocation, so after a first inbound message bearing its
correlation id is processed, a second message bearing the same id leaves
the state exactly unchanged — no effect on the pending invocation, and
no error (the handler is a total function).  (A zero id would be falsy
and never fire at all; random `Uint32` ids name resolvers only when
non-zero.) -/
theorem C3_duplicate_id_inert (st : SysState) (i : Nat) (cb : Callback) (v : JVal)
    (hi : i ≠ 0) (hcb : lookupWindow st.window i = some cb) (honce : cb.once = true) :
    lookupWindow ((handleParsed st
        (.obj [("result_id", .num (i : Int)), ("result", v)])).window) i = none ∧
    handleParsed (handleParsed st (.obj [("result_id", .num (i : Int)), ("result", v)]))
        (.obj [("result_id", .num (i : Int)), ("result", v)]) =
      handleParsed st (.obj [("result_id", .num (i : Int)), ("result", v)]) := by
  have key : handleParsed st (.obj [("result_id", .num (i : Int)), ("result", v)]) =
      runCallback st i cb (some (jsonMakeObjectSafeInv v)) := by
    rw [handleParsed_result_msg st i v hi, hcb]
  have hwin : (runCallback st i cb (some (jsonMakeObjectSafeInv v))).window =
      eraseWindow st.window i := by
    rcases cb with ⟨o, pid, role⟩
    have ho : o = true := honce
    subst ho
    cases role <;> simp [runCallback]
  have hnone : lookupWindow ((handleParsed st
      (.obj [("result_id", .num (i : Int)), ("result", v)])).window) i = none := by
    rw [key, hwin]
    exact lookupWindow_erase_self _ _
  refine ⟨hnone, ?_⟩
  rw [handleParsed_result_msg _ i v hi, hnone]

/-- C3 (witness): the duplicate message is inert at a concrete state. -/
theorem C3_witness :
    lookupWindow ((⟨true, [(9, ⟨true, 0, .success⟩)], [(0, .pending)], [], [],
        1⟩ : SysState).window) 9 = some ⟨true, 0, .success⟩ ∧
    lookupWindow ((handleParsed ⟨true, [(9, ⟨true, 0, .success⟩)], [(0, .pending)],
        [], [], 1⟩ (.obj [("result_id", .num (9 : Int)),
          ("result", .num 5)])).window) 9 = none ∧
    handleParsed (handleParsed ⟨true, [(9, ⟨true, 0, .success⟩)], [(0, .pending)],
        [], [], 1⟩ (.obj [("result_id", .num (9 : Int)), ("result", .num 5)]))
        (.obj [("result_id", .num (9 : Int)), ("result", .num 5)]) =
      handleParsed ⟨true, [(9, ⟨true, 0, .success⟩)], [(0, .pending)], [], [], 1⟩
        (.obj [("result_id", .num (9 : Int)), ("result", .num 5)]) := by
  have h := C3_duplicate_id_inert
    ⟨true, [(9, ⟨true, 0, .success⟩)], [(0, .pending)], [], [], 1⟩ 9
    ⟨true, 0, .success⟩ (.num 5) (by decide) (by rfl) rfl
  exact ⟨by rfl, h.1, h.2⟩

/-! ## Claim C10 -/

/-- C10: resolving a pending invocation through its `result_id` removes
only that resolver: the paired `error_id` resolver stays registered, and
a later message bearing the `error_id` still invokes and deregisters it
while the already-resolved deferred keeps its value (a promise settles
only once). -/
theorem C10_counterpart_resolver_survives (st : SysState) (cmd : String)
    (args v w : JVal) (r e : Nat) (rest : List Nat)
    (hconn : st.connected = true) (hst : st.uidStream = r :: e :: rest)
    (hr : r ≠ 0) (he : e ≠ 0) (hre : r ≠ e)
    (st1 : SysState) (h1 : st1 = (invoke st cmd args).1)
    (st2 : SysState) (h2 : st2 = handleParsed st1
      (.obj [("result_id", .num (r : Int)), ("result", v)]))
    (st3 : SysState) (h3 : st3 = handleParsed st2
      (.obj [("error_id", .num (e : Int)), ("error", w)])) :
    lookupWindow st2.window r = none ∧
    lookupWindow st2.window e = some ⟨true, st.nextPromise, .failure⟩ ∧
    lookupPromise st2.promises st.nextPromise =
      some (.settled (.resolvedV (jsonRestoreObjectSync (jsonMakeObjectSafeInv v)))) ∧
    lookupWindow st3.window e = none ∧
    lookupPromise st3.promises st.nextPromise =
      lookupPromise st2.promises st.nextPromise := by
  have hw1 : st1.window = (e, ⟨true, st.nextPromise, .failure⟩) ::
      eraseWindow ((r, ⟨true, st.nextPromise, .success⟩) :: eraseWindow st.window r) e := by
    rw [h1]
    simp [invoke, hconn, hst]
  have hp1 : st1.promises = (st.nextPromise, .pending) :: st.promises := by
    rw [h1]
    simp [invoke, hconn, hst]
  have hlr : lookupWindow st1.window r = some ⟨true, st.nextPromise, .success⟩ := by
    rw [hw1, lookupWindow_cons, if_neg (Ne.symm hre),
      lookupWindow_erase_ne _ hre, lookupWindow_cons, if_pos rfl]
  have hst2 : st2 = runCallback st1 r ⟨true, st.nextPromise, .success⟩
      (some (jsonMakeObjectSafeInv v)) := by
    rw [h2, handleParsed_result_msg st1 r v hr, hlr]
  have hw2 : st2.window = eraseWindow st1.window r := by
    rw [hst2]
    simp [runCallback]
  have hp2 : st2.promises = settle st1.promises st.nextPromise
      (.resolvedV (jsonRestoreObjectSync (jsonMakeObjectSafeInv v))) := by
    rw [hst2]
    simp [runCallback]
  have f1 : lookupWindow st2.window r = none := by
    rw [hw2]
    exact lookupWindow_erase_self _ _
  have f2 : lookupWindow st2.window e = some ⟨true, st.nextPromise, .failure⟩ := by
    rw [hw2, lookupWindow_erase_ne _ (Ne.symm hre), hw1, lookupWindow_cons, if_pos rfl]
  have f3 : lookupPromise st2.promises st.nextPromise =
      some (.settled (.resolvedV (jsonRestoreObjectSync (jsonMakeObjectSafeInv v)))) := by
    rw [hp2, lookupPromise_settle_self, hp1, lookupPromise_cons, if_pos rfl]
    rfl
  have hst3 : st3 = runCallback st2 e ⟨true, st.nextPromise, .failure⟩
      (some (jsonMakeObjectSafeInv w)) := by
    rw [h3, handleParsed_error_msg st2 e w he, f2]
  have hw3 : st3.window = eraseWindow st2.window e := by
    rw [hst3]
    simp [runCallback]
  have hp3 : st3.promises = settle st2.promises st.nextPromise
      (.rejectedV (jsonRestoreObjectSync (jsonMakeObjectSafeInv w))) := by
    rw [hst3]
    simp [runCallback]
  have f4 : lookupWindow st3.window e = none := by
    rw [hw3]
    exact lookupWindow_erase_self _ _
  have f5 : lookupPromise st3.promises st.nextPromise =
      lookupPromise st2.promises st.nextPromise := by
    rw [hp3, lookupPromise_settle_self, f3]
    rfl
  exact ⟨f1, f2, f3, f4, f5⟩

/-- C10 (witness): the counterpart-resolver behaviour at a concrete
invocation. -/
theorem C10_witness :
    lookupWindow ((handleParsed ((invoke ⟨true, [], [], [], [7, 8], 0⟩ "echo" .null).1)
        (.obj [("result_id", .num (7 : Int)), ("result", .num 1)])).window) 7 = none ∧
    lookupWindow ((handleParsed ((invoke ⟨true, [], [], [], [7, 8], 0⟩ "echo" .null).1)
        (.obj [("result_id", .num (7 : Int)), ("result", .num 1)])).window) 8 =
      some ⟨true, 0, .failure⟩ ∧
    lookupPromise ((handleParsed ((invoke ⟨true, [], [], [], [7, 8], 0⟩ "echo" .null).1)
        (.obj [("result_id", .num (7 : Int)), ("result", .num 1)])).promises) 0 =
      some (.settled (.resolvedV (jsonRestoreObjectSync
        (jsonMakeObjectSafeInv (.num 1))))) ∧
    lookupWindow ((handleParsed (handleParsed
        ((invoke ⟨true, [], [], [], [7, 8], 0⟩ "echo" .null).1)
        (.obj [("result_id", .num (7 : Int)), ("result", .num 1)]))
        (.obj [("error_id", .num (8 : Int)), ("error", .str "boom")])).window) 8 = none ∧
    lookupPromise ((handleParsed (handleParsed
        ((invoke ⟨true, [], [], [], [7, 8], 0⟩ "echo" .null).1)
        (.obj [("result_id", .num (7 : Int)), ("result", .num 1)]))
        (.obj [("error_id", .num (8 : Int)), ("error", .str "boom")])).promises) 0 =
      lookupPromise ((handleParsed ((invoke ⟨true, [], [], [], [7, 8], 0⟩ "echo" .null).1)
        (.obj [("result_id", .num (7 : Int)), ("result", .num 1)])).promises) 0 :=
  C10_counterpart_resolver_survives ⟨true, [], [], [], [7, 8], 0⟩ "echo" .null
    (.num 1) (.str "boom") 7 8 [] rfl rfl (by decide) (by decide) (by decide)
    _ rfl _ rfl _ rfl

end PyOrion
